import Mathlib

/-!
Shallow embedding of the identity / signing / content-propagation core of the
decentralised social network node (backend sources `core/crypto.ts` and the
`P2PNode` class).

Modelling conventions:
* JavaScript strings are Lean `String`s; `Date.now()` timestamps are `Nat`s
  passed explicitly to the operations that read the clock.
* The Node.js `crypto` module (RSA key generation, SHA256 sign/verify, SHA256
  hashing) is an opaque platform primitive.  It is modelled by the record
  `CryptoPrimitive`; `rawVerify` returns `Except` because the platform verify
  call can throw on malformed keys, which `verifySignature` catches.
* A JS `Map` is a list of key/value pairs in insertion order (`Map.set` on an
  existing key updates in place, otherwise appends); a JS `Set` is a list of
  distinct elements in insertion order.
* `Array.prototype.sort` with a comparator is, per the ECMAScript contract, a
  stable sort consistent with the comparator; it is modelled by Mathlib's
  stable `List.insertionSort`.
* The `EventEmitter.emit` calls are modelled by returning the list of emitted
  events alongside the new node state.
-/

namespace DSocial

/-! ### JSON encoding (`JSON.stringify` on the fixed field sets) -/

def hexDigit (n : Nat) : Char :=
  if n < 10 then Char.ofNat (48 + n) else Char.ofNat (87 + n)

/-- Escaping of one character inside a JSON string literal, as performed by
`JSON.stringify` on string values. -/
def jsonEscapeChar (c : Char) : String :=
  if c = '"' then "\\\""
  else if c = '\\' then "\\\\"
  else if c = '\n' then "\\n"
  else if c = '\r' then "\\r"
  else if c = '\t' then "\\t"
  else if c = Char.ofNat 8 then "\\b"
  else if c = Char.ofNat 12 then "\\f"
  else if c.toNat < 32 then "\\u00" ++ String.mk [hexDigit (c.toNat / 16), hexDigit (c.toNat % 16)]
  else String.mk [c]

/-- `JSON.stringify` of a string value. -/
def jsonString (s : String) : String :=
  "\"" ++ String.join (s.data.map jsonEscapeChar) ++ "\""

/-! ### PEM framing of the public key (`generateKeyPair` export and
`verifySignature` reconstruction in `crypto.ts`) -/

def pemHeader : String := "-----BEGIN PUBLIC KEY-----"

def pemFooter : String := "-----END PUBLIC KEY-----"

/-- `pat.isPrefixOf l` as plain boolean recursion on character lists. -/
def hasPrefixL : List Char → List Char → Bool
  | [], _ => true
  | _ :: _, [] => false
  | p :: ps, c :: cs => p = c && hasPrefixL ps cs

/-- `s.replace(pat, '')` for a non-global (first occurrence only) pattern, on
character lists. -/
def removeOnce (pat : List Char) : List Char → List Char
  | [] => []
  | c :: cs =>
    if hasPrefixL pat (c :: cs) then List.drop pat.length (c :: cs)
    else c :: removeOnce pat cs

/-- `s.replace(/\n/g, '')`: removes every newline character. -/
def stripNewlines (s : String) : String :=
  String.mk (s.data.filter (fun c => c ≠ '\n'))

/-- `s.replace(pat, '')` with a plain-text first-occurrence pattern. -/
def removeFirstStr (s pat : String) : String :=
  String.mk (removeOnce pat.data s.data)

/-- The export normalisation applied to the PEM public key in
`generateKeyPair`: drop all newlines, then the BEGIN marker, then the END
marker. -/
def exportPublicKey (pem : String) : String :=
  removeFirstStr (removeFirstStr (stripNewlines pem) pemHeader) pemFooter

/-- The PEM block rebuilt inside `verifySignature` around the exported key. -/
def fullPublicKey (publicKey : String) : String :=
  pemHeader ++ "\n" ++ publicKey ++ "\n" ++ pemFooter

/-! ### The platform crypto primitive and the `crypto.ts` wrappers -/

/-- Opaque model of the Node.js `crypto` module operations used by
`crypto.ts`.  `rawVerify` receives the PEM text handed to `verify.verify` and
may fail (`Except.error`) to model the exceptions thrown on malformed keys or
signatures. -/
structure CryptoPrimitive where
  rawSign : String → String → String
  rawVerify : String → String → String → Except String Bool
  rawHash : String → String

structure KeyPair where
  publicKey : String
  privateKey : String
deriving DecidableEq

/-- `generateKeyPair` (crypto.ts): the platform produces a PEM public key and
a PEM private key; the exported public key is the PEM stripped of newlines and
of the BEGIN/END markers. -/
def generateKeyPair (pem privateKey : String) : KeyPair :=
  { publicKey := exportPublicKey pem, privateKey := privateKey }

/-- `signMessage` (crypto.ts). -/
def signMessage (prim : CryptoPrimitive) (message privateKey : String) : String :=
  prim.rawSign message privateKey

/-- `verifySignature` (crypto.ts): rebuilds the PEM block around the exported
key and calls the platform verifier; the surrounding `try/catch` turns any
thrown error into `false`. -/
def verifySignature (prim : CryptoPrimitive) (message signature publicKey : String) : Bool :=
  match prim.rawVerify message signature (fullPublicKey publicKey) with
  | Except.ok b => b
  | Except.error _ => false

/-- `hashMessage` (crypto.ts). -/
def hashMessage (prim : CryptoPrimitive) (message : String) : String :=
  prim.rawHash message

/-! ### Data model (`p2p-node.ts` interfaces) -/

structure SocialPost where
  id : String
  author : String
  content : String
  timestamp : Nat
  signature : String
  authorPublicKey : String
deriving DecidableEq

structure UserProfile where
  id : String
  username : String
  publicKey : String
  bio : Option String
  avatar : Option String
  timestamp : Nat
  signature : String
deriving DecidableEq

inductive MsgType where
  | post
  | profile
  | follow
  | unfollow
deriving DecidableEq

def msgTypeString : MsgType → String
  | MsgType.post => "post"
  | MsgType.profile => "profile"
  | MsgType.follow => "follow"
  | MsgType.unfollow => "unfollow"

/-- The `data: any` payload of a network message, as actually sent by the
node: a post or a profile. -/
inductive MessageData where
  | postData : SocialPost → MessageData
  | profileData : UserProfile → MessageData
deriving DecidableEq

structure NetworkMessage where
  type : MsgType
  data : MessageData
  sender : String
  timestamp : Nat
  signature : String
deriving DecidableEq

/-- Events delivered through `EventEmitter.emit` to the API layer. -/
inductive NodeEvent where
  | postEvent : SocialPost → NodeEvent
  | profileEvent : UserProfile → NodeEvent
deriving DecidableEq

/-! ### JS `Map` (insertion ordered) and `Set` operations -/

def mapHas {β : Type} (m : List (String × β)) (k : String) : Bool :=
  m.any (fun e => e.1 = k)

def mapGet {β : Type} (m : List (String × β)) (k : String) : Option β :=
  (m.find? (fun e => e.1 = k)).map (fun e => e.2)

/-- `Map.set`: replaces in place when the key is present, appends otherwise. -/
def mapSet {β : Type} (m : List (String × β)) (k : String) (v : β) : List (String × β) :=
  if mapHas m k then m.map (fun e => if e.1 = k then (k, v) else e)
  else m ++ [(k, v)]

/-- `Map.values()` in insertion order. -/
def mapValues {β : Type} (m : List (String × β)) : List β :=
  m.map (fun e => e.2)

def setHas (s : List String) (x : String) : Bool :=
  s.contains x

def setAdd (s : List String) (x : String) : List String :=
  if s.contains x then s else s ++ [x]

def setDelete (s : List String) (x : String) : List String :=
  s.filter (fun y => y ≠ x)

/-- The mutable state of a `P2PNode` (the libp2p handle is outside the model). -/
structure NodeState where
  keyPair : Option KeyPair
  profile : Option UserProfile
  posts : List (String × SocialPost)
  peers : List (String × UserProfile)
  following : List String
deriving DecidableEq

/-! ### Canonical signed encodings (the `JSON.stringify` calls on the
whitelisted field sets) -/

/-- The profile bytes that are signed and verified:
`JSON.stringify({id, username, publicKey, timestamp})`. -/
def profileSignedData (p : UserProfile) : String :=
  "\x7b\"id\":" ++ jsonString p.id ++
  ",\"username\":" ++ jsonString p.username ++
  ",\"publicKey\":" ++ jsonString p.publicKey ++
  ",\"timestamp\":" ++ toString p.timestamp ++ "\x7d"

/-- The post bytes that are signed and verified:
`JSON.stringify({id, author, content, timestamp, authorPublicKey})`. -/
def postSignedData (p : SocialPost) : String :=
  "\x7b\"id\":" ++ jsonString p.id ++
  ",\"author\":" ++ jsonString p.author ++
  ",\"content\":" ++ jsonString p.content ++
  ",\"timestamp\":" ++ toString p.timestamp ++
  ",\"authorPublicKey\":" ++ jsonString p.authorPublicKey ++ "\x7d"

/-- `JSON.stringify` of a whole post object (declaration field order). -/
def postJson (p : SocialPost) : String :=
  "\x7b\"id\":" ++ jsonString p.id ++
  ",\"author\":" ++ jsonString p.author ++
  ",\"content\":" ++ jsonString p.content ++
  ",\"timestamp\":" ++ toString p.timestamp ++
  ",\"signature\":" ++ jsonString p.signature ++
  ",\"authorPublicKey\":" ++ jsonString p.authorPublicKey ++ "\x7d"

/-- `JSON.stringify` of a whole profile object (declaration field order;
`undefined` optional fields are omitted, as `JSON.stringify` does). -/
def profileJson (p : UserProfile) : String :=
  "\x7b\"id\":" ++ jsonString p.id ++
  ",\"username\":" ++ jsonString p.username ++
  ",\"publicKey\":" ++ jsonString p.publicKey ++
  (match p.bio with
   | some b => ",\"bio\":" ++ jsonString b
   | none => "") ++
  (match p.avatar with
   | some a => ",\"avatar\":" ++ jsonString a
   | none => "") ++
  ",\"timestamp\":" ++ toString p.timestamp ++
  ",\"signature\":" ++ jsonString p.signature ++ "\x7d"

def messageDataJson : MessageData → String
  | MessageData.postData p => postJson p
  | MessageData.profileData q => profileJson q

/-- The envelope bytes computed (and then discarded) by
`verifyNetworkMessage`: `JSON.stringify({type, data, sender, timestamp})`. -/
def networkMessageJson (m : NetworkMessage) : String :=
  "\x7b\"type\":" ++ jsonString (msgTypeString m.type) ++
  ",\"data\":" ++ messageDataJson m.data ++
  ",\"sender\":" ++ jsonString m.sender ++
  ",\"timestamp\":" ++ toString m.timestamp ++ "\x7d"

/-! ### The `P2PNode` operations -/

/-- `verifyPost`: verifies the payload signature of a post against its own
embedded `authorPublicKey`.  The source wraps the body in `try/catch`; in the
model neither `JSON.stringify` nor `verifySignature` can throw. -/
def verifyPost (prim : CryptoPrimitive) (post : SocialPost) : Bool :=
  verifySignature prim (postSignedData post) post.signature post.authorPublicKey

/-- `verifyProfile`: verifies the payload signature of a profile against its
own embedded `publicKey` (self-certifying). -/
def verifyProfile (prim : CryptoPrimitive) (profile : UserProfile) : Bool :=
  verifySignature prim (profileSignedData profile) profile.signature profile.publicKey

/-- `verifyNetworkMessage`: serialises the envelope (the result is unused) and
then only checks that the envelope-level signature string is non-empty
(`Boolean(message.signature && message.signature.length > 0)`); no
cryptographic check is performed on it. -/
def verifyNetworkMessage (message : NetworkMessage) : Bool :=
  let _messageData := networkMessageJson message
  decide (0 < message.signature.length)

/-- `handleIncomingPost`: drop on failed payload verification; drop silently
when the id is already stored; otherwise store and emit a `post` event. -/
def handleIncomingPost (prim : CryptoPrimitive) (post : SocialPost) (st : NodeState) :
    NodeState × List NodeEvent :=
  if verifyPost prim post = false then (st, [])
  else if mapHas st.posts post.id then (st, [])
  else ({ st with posts := mapSet st.posts post.id post }, [NodeEvent.postEvent post])

/-- `handleIncomingProfile`: drop on failed payload verification; otherwise
store (unconditionally replacing any previous profile for that id) and emit a
`profile` event. -/
def handleIncomingProfile (prim : CryptoPrimitive) (profile : UserProfile) (st : NodeState) :
    NodeState × List NodeEvent :=
  if verifyProfile prim profile = false then (st, [])
  else ({ st with peers := mapSet st.peers profile.id profile },
        [NodeEvent.profileEvent profile])

/-- `handlePeerConnect`: on transport-level contact it synthesises a mock
profile (placeholder key and signature), stores it in the peer map and emits a
`profile` event, with no verification. -/
def handlePeerConnect (peerId : String) (now : Nat) (st : NodeState) :
    NodeState × List NodeEvent :=
  let mockPeer : UserProfile :=
    { id := peerId
      username := "Peer-" ++ peerId.take 8
      publicKey := "mock-public-key"
      bio := none
      avatar := none
      timestamp := now
      signature := "mock-signature" }
  ({ st with peers := mapSet st.peers peerId mockPeer }, [NodeEvent.profileEvent mockPeer])

/-- Result of processing one inbound envelope: new state, emitted events, and
the number of payload-level verification calls performed (instrumentation used
to state the early-drop property). -/
structure HandleResult where
  state : NodeState
  events : List NodeEvent
  payloadVerifyCalls : Nat
deriving DecidableEq

/-- `handleNetworkMessage`: drops the envelope when `verifyNetworkMessage`
fails, otherwise dispatches on the type tag.  A payload whose shape does not
match the type tag is cast unchecked in the source; its coerced field set
cannot carry a valid signature, so it is modelled as a failed payload
verification with no state change.  `follow`/`unfollow` envelopes produce no
state change. -/
def handleNetworkMessage (prim : CryptoPrimitive) (message : NetworkMessage) (st : NodeState) :
    HandleResult :=
  if verifyNetworkMessage message = false then { state := st, events := [], payloadVerifyCalls := 0 }
  else
    match message.type, message.data with
    | MsgType.post, MessageData.postData p =>
      let r := handleIncomingPost prim p st
      { state := r.1, events := r.2, payloadVerifyCalls := 1 }
    | MsgType.post, MessageData.profileData _ =>
      { state := st, events := [], payloadVerifyCalls := 1 }
    | MsgType.profile, MessageData.profileData q =>
      let r := handleIncomingProfile prim q st
      { state := r.1, events := r.2, payloadVerifyCalls := 1 }
    | MsgType.profile, MessageData.postData _ =>
      { state := st, events := [], payloadVerifyCalls := 1 }
    | MsgType.follow, _ => { state := st, events := [], payloadVerifyCalls := 0 }
    | MsgType.unfollow, _ => { state := st, events := [], payloadVerifyCalls := 0 }

/-- The post built by `createPost` once the node is initialised: the id hashes
`content + Date.now() + profile.id` (first clock read `now1`), the timestamp is
the second clock read `now2`, and the signature covers the canonical signed
field set. -/
def mkLocalPost (prim : CryptoPrimitive) (kp : KeyPair) (prof : UserProfile)
    (content : String) (now1 now2 : Nat) : SocialPost :=
  let base : SocialPost :=
    { id := hashMessage prim (content ++ toString now1 ++ prof.id)
      author := prof.username
      content := content
      timestamp := now2
      signature := ""
      authorPublicKey := kp.publicKey }
  { base with signature := signMessage prim (postSignedData base) kp.privateKey }

/-- `createPost`: throws `Node not initialized` before touching any state when
the keypair or the profile is absent; otherwise builds, signs, stores
(unconditional `Map.set`) and emits the new post. -/
def createPost (prim : CryptoPrimitive) (st : NodeState) (content : String)
    (now1 now2 : Nat) : NodeState × Except String (SocialPost × List NodeEvent) :=
  match st.keyPair, st.profile with
  | some kp, some prof =>
    let post := mkLocalPost prim kp prof content now1 now2
    ({ st with posts := mapSet st.posts post.id post },
     Except.ok (post, [NodeEvent.postEvent post]))
  | _, _ => (st, Except.error "Node not initialized")

/-- `followUser`. -/
def followUser (st : NodeState) (userId : String) : NodeState :=
  { st with following := setAdd st.following userId }

/-- `unfollowUser`. -/
def unfollowUser (st : NodeState) (userId : String) : NodeState :=
  { st with following := setDelete st.following userId }

/-- `getPosts`: the stored posts, stably sorted by the comparator
`(a, b) => b.timestamp - a.timestamp`, i.e. non-strictly descending by
timestamp with ties left in map insertion order. -/
def getPosts (st : NodeState) : List SocialPost :=
  List.insertionSort (fun a b => b.timestamp ≤ a.timestamp) (mapValues st.posts)

/-- The truthiness test `this.profile && key === this.profile.publicKey`. -/
def isSelfKey (st : NodeState) (k : String) : Bool :=
  match st.profile with
  | some p => k = p.publicKey
  | none => false

/-- `getFollowedPosts`: filters `getPosts` to authors in the follow set or the
local user's own key. -/
def getFollowedPosts (st : NodeState) : List SocialPost :=
  (getPosts st).filter (fun post =>
    setHas st.following post.authorPublicKey || isSelfKey st post.authorPublicKey)

/-- `getPeers`. -/
def getPeers (st : NodeState) : List UserProfile :=
  mapValues st.peers

/-! ### Concrete instantiations of the platform primitive, and concrete
states, used to evaluate the operations on closed inputs -/

/-- A concrete executable signature scheme: a signature is the key payload
followed by the message, and the private key of a pair is the exported public
payload itself.  Verification extracts the payload from the PEM text exactly
as a lenient PEM parser does. -/
def toyPrim : CryptoPrimitive where
  rawSign m k := k ++ ":" ++ m
  rawVerify m s k := Except.ok (decide (s = exportPublicKey k ++ ":" ++ m))
  rawHash s := "#" ++ s

/-- A platform primitive whose verify call always throws, modelling a
malformed key or signature encoding. -/
def errPrim : CryptoPrimitive where
  rawSign m k := m ++ k
  rawVerify _ _ _ := Except.error "bad key"
  rawHash s := s

/-- A freshly constructed node before `start` has run. -/
def emptyNode : NodeState :=
  { keyPair := none, profile := none, posts := [], peers := [], following := [] }

/-- A concrete PEM public key as the platform would emit it. -/
def toyPem : String := pemHeader ++ "\n" ++ "TOYKEY" ++ "\n" ++ pemFooter ++ "\n"

/-- The mock profile synthesised by `handlePeerConnect("QmPeerOne")`. -/
def mockPeerProfile : UserProfile :=
  { id := "QmPeerOne", username := "Peer-QmPeerOn", publicKey := "mock-public-key"
    bio := none, avatar := none, timestamp := 1000, signature := "mock-signature" }

def profA_oldBase : UserProfile :=
  { id := "idA", username := "aliceOld", publicKey := "KEYA"
    bio := none, avatar := none, timestamp := 100, signature := "" }

/-- A profile for identity `idA` at timestamp 100, validly signed under
`toyPrim`. -/
def profA_old : UserProfile :=
  { profA_oldBase with signature := "KEYA:" ++ profileSignedData profA_oldBase }

def profA_newBase : UserProfile :=
  { id := "idA", username := "aliceNew", publicKey := "KEYA"
    bio := none, avatar := none, timestamp := 50, signature := "" }

/-- A later-received profile for the same identity with a STALE timestamp 50,
also validly signed under `toyPrim`. -/
def profA_new : UserProfile :=
  { profA_newBase with signature := "KEYA:" ++ profileSignedData profA_newBase }

/-- A peer directory already holding `profA_old`, reached by processing it. -/
def peerStateA : NodeState := (handleIncomingProfile toyPrim profA_old emptyNode).1

/-- The self profile of an initialised node whose key payload is `KEYA`. -/
def selfProf : UserProfile :=
  { id := "idSelf", username := "me", publicKey := "KEYA"
    bio := none, avatar := none, timestamp := 10, signature := "selfsig" }

def selfKp : KeyPair := { publicKey := "KEYA", privateKey := "KEYA" }

/-- An initialised node (keypair and profile present, empty stores). -/
def initNode : NodeState :=
  { keyPair := some selfKp, profile := some selfProf, posts := [], peers := [], following := [] }

/-- State after `createPost("hello")` with both clock reads at 500. -/
def c4st1 : NodeState := (createPost toyPrim initNode "hello" 500 500).1

/-- The post a second `createPost("hello")` builds when the first clock read
is still 500 but the second has ticked to 501: same id, different timestamp. -/
def c4p2 : SocialPost := mkLocalPost toyPrim selfKp selfProf "hello" 500 501

/-- A stored post authored by key `AKEY`. -/
def c5post : SocialPost :=
  { id := "pid1", author := "al", content := "hey", timestamp := 40
    signature := "sg", authorPublicKey := "AKEY" }

def c5state : NodeState :=
  { keyPair := none, profile := none, posts := [("pid1", c5post)], peers := [], following := [] }

def c6postB : SocialPost :=
  { id := "b", author := "u1", content := "c1", timestamp := 100
    signature := "s1", authorPublicKey := "k1" }

def c6postA : SocialPost :=
  { id := "a", author := "u2", content := "c2", timestamp := 100
    signature := "s2", authorPublicKey := "k2" }

/-- Two equal-timestamp posts inserted under ids "b" then "a". -/
def c6state : NodeState :=
  { keyPair := none, profile := none, posts := [("b", c6postB), ("a", c6postA)]
    peers := [], following := [] }

/-- Boolean lexicographic order on character lists. -/
def tieLt : List Char → List Char → Bool
  | [], [] => false
  | [], _ :: _ => true
  | _ :: _, [] => false
  | x :: xs, y :: ys => x < y || (x = y && tieLt xs ys)

/-- Modelled from the spec: the ordering the spec claims for `list()` —
descending by timestamp, ties broken by lexicographic order of post id.  Used
only to compare the source's actual ordering against the spec's words. -/
def specOrderedBool : List SocialPost → Bool
  | [] => true
  | [_] => true
  | a :: b :: rest =>
    (b.timestamp < a.timestamp ||
      (a.timestamp = b.timestamp && tieLt a.id.data b.id.data)) &&
    specOrderedBool (b :: rest)

/-- An inbound envelope whose envelope-level signature is the empty string. -/
def c7msg : NetworkMessage :=
  { type := MsgType.post, data := MessageData.postData c5post
    sender := "sender1", timestamp := 5, signature := "" }

/-! ### Helper lemmas about the PEM string surgery -/

lemma hasPrefixL_append (pat rest : List Char) : hasPrefixL pat (pat ++ rest) = true := by
  induction pat with
  | nil => rfl
  | cons p ps ih => simp [hasPrefixL, ih]

lemma removeOnce_nil_pat (l : List Char) : removeOnce [] l = l := by
  cases l <;> simp [removeOnce, hasPrefixL]

lemma removeOnce_append_self (pat rest : List Char) : removeOnce pat (pat ++ rest) = rest := by
  cases pat with
  | nil => simp [removeOnce_nil_pat]
  | cons p ps =>
    have hp : hasPrefixL (p :: ps) (p :: (ps ++ rest)) = true := by
      have := hasPrefixL_append (p :: ps) rest
      simpa using this
    rw [List.cons_append, removeOnce, if_pos hp]
    simp

lemma removeOnce_append_of_ne_head (p : Char) (ps x y : List Char)
    (h : ∀ c ∈ x, c ≠ p) :
    removeOnce (p :: ps) (x ++ y) = x ++ removeOnce (p :: ps) y := by
  induction x with
  | nil => simp
  | cons c cs ih =>
    have hc : c ≠ p := h c (by simp)
    have hp : hasPrefixL (p :: ps) (c :: (cs ++ y)) = false := by
      simp [hasPrefixL]
      intro he
      exact absurd he.symm hc
    have ih2 := ih (fun d hd => h d (List.mem_cons_of_mem _ hd))
    simp [removeOnce, hp, ih2]

lemma mem_of_mem_removeOnce {pat l : List Char} {c : Char}
    (h : c ∈ removeOnce pat l) : c ∈ l := by
  induction l with
  | nil => exact h
  | cons a as ih =>
    by_cases hp : hasPrefixL pat (a :: as) = true
    · rw [removeOnce, if_pos hp] at h
      exact List.mem_of_mem_drop h
    · rw [removeOnce, if_neg hp] at h
      rcases List.mem_cons.mp h with h | h
      · simp [h]
      · exact List.mem_cons_of_mem _ (ih h)

lemma no_newline_exportPublicKey (pem : String) :
    ∀ c ∈ (exportPublicKey pem).data, c ≠ '\n' := by
  intro c hc
  simp only [exportPublicKey, removeFirstStr, stripNewlines] at hc
  have h1 := mem_of_mem_removeOnce hc
  have h2 := mem_of_mem_removeOnce h1
  have h3 := List.mem_filter.mp h2
  simpa using h3.2

lemma exportPublicKey_wrap (P : String)
    (hdash : ∀ c ∈ P.data, c ≠ '-') (hnl : ∀ c ∈ P.data, c ≠ '\n') :
    exportPublicKey (fullPublicKey P) = P := by
  have hfull : (fullPublicKey P).data
      = pemHeader.data ++ ('\n' :: (P.data ++ '\n' :: pemFooter.data)) := by
    simp [fullPublicKey, String.data_append]
  have hPfilter : P.data.filter (fun c => decide (c ≠ '\n')) = P.data :=
    List.filter_eq_self.mpr (fun a ha => by simpa using hnl a ha)
  have hHfilter : pemHeader.data.filter (fun c => decide (c ≠ '\n')) = pemHeader.data := by
    decide
  have hFfilter : pemFooter.data.filter (fun c => decide (c ≠ '\n')) = pemFooter.data := by
    decide
  have hdropnl : ∀ l : List Char,
      List.filter (fun c => decide (c ≠ '\n')) ('\n' :: l)
        = List.filter (fun c => decide (c ≠ '\n')) l := by
    intro l
    simp
  have hfilter : (fullPublicKey P).data.filter (fun c => decide (c ≠ '\n'))
      = pemHeader.data ++ (P.data ++ pemFooter.data) := by
    rw [hfull, List.filter_append, hHfilter, hdropnl, List.filter_append, hPfilter, hdropnl,
      hFfilter]
  have hheader : removeOnce pemHeader.data (pemHeader.data ++ (P.data ++ pemFooter.data))
      = P.data ++ pemFooter.data := removeOnce_append_self _ _
  have hfootend : removeOnce pemFooter.data pemFooter.data = [] := by
    have := removeOnce_append_self pemFooter.data []
    simpa using this
  have hfooter : removeOnce pemFooter.data (P.data ++ pemFooter.data) = P.data := by
    have hcons : pemFooter.data = '-' :: "----END PUBLIC KEY-----".data := rfl
    rw [hcons]
    rw [removeOnce_append_of_ne_head '-' _ _ _ (fun c hc => hdash c hc)]
    rw [← hcons, hfootend, List.append_nil]
  show String.mk (removeOnce pemFooter.data (removeOnce pemHeader.data
      ((fullPublicKey P).data.filter (fun c => decide (c ≠ '\n'))))) = P
  rw [hfilter, hheader, hfooter]

/-! ### Helper lemmas about the map / set operations -/

lemma mapGet_cons {β : Type} (e : String × β) (es : List (String × β)) (k : String) :
    mapGet (e :: es) k = if e.1 = k then some e.2 else mapGet es k := by
  by_cases h : e.1 = k <;> simp [mapGet, List.find?_cons, h]

lemma mapGet_mapSet_self {β : Type} (m : List (String × β)) (k : String) (v : β) :
    mapGet (mapSet m k v) k = some v := by
  induction m with
  | nil => simp [mapSet, mapHas, mapGet, List.find?_cons]
  | cons e es ih =>
    by_cases he : e.1 = k
    · have hh : mapHas (e :: es) k = true := by simp [mapHas, he]
      rw [mapSet, if_pos hh, List.map_cons]
      have hfe : (if e.1 = k then (k, v) else e) = (k, v) := if_pos he
      rw [hfe, mapGet_cons]
      simp
    · have hh : mapHas (e :: es) k = mapHas es k := by simp [mapHas, he]
      by_cases hes : mapHas es k = true
      · have h1 : mapSet (e :: es) k v = e :: mapSet es k v := by
          rw [mapSet, mapSet, if_pos (by rw [hh]; exact hes), if_pos hes, List.map_cons]
          simp [he]
        rw [h1, mapGet_cons, if_neg he, ih]
      · have h1 : mapSet (e :: es) k v = e :: mapSet es k v := by
          rw [mapSet, mapSet, if_neg (by rw [hh]; exact hes), if_neg hes]
          simp
        rw [h1, mapGet_cons, if_neg he, ih]

lemma mem_values_mapSet {β : Type} (m : List (String × β)) (k : String) (v : β) (q : β)
    (h : q ∈ mapValues (mapSet m k v)) : q ∈ mapValues m ∨ q = v := by
  by_cases hh : mapHas m k = true
  · rw [mapSet, if_pos hh, mapValues, List.map_map] at h
    rcases List.mem_map.mp h with ⟨e, he, hq⟩
    by_cases hek : e.1 = k
    · right
      simp [hek] at hq
      exact hq.symm
    · left
      rw [mapValues]
      refine List.mem_map.mpr ⟨e, he, ?_⟩
      simpa [hek] using hq
  · rw [mapSet, if_neg hh, mapValues, List.map_append] at h
    rcases List.mem_append.mp h with h | h
    · exact Or.inl h
    · right
      simpa using h

lemma setHas_iff (s : List String) (x : String) : setHas s x = true ↔ x ∈ s := by
  simp [setHas]

lemma setHas_setAdd_self (s : List String) (x : String) : setHas (setAdd s x) x = true := by
  rw [setHas_iff, setAdd]
  by_cases h : s.contains x
  · rw [if_pos h]
    simpa using h
  · rw [if_neg h]
    simp

lemma setHas_setDelete_self (s : List String) (x : String) :
    setHas (setDelete s x) x = false := by
  rw [Bool.eq_false_iff]
  intro h
  have h1 := (setHas_iff _ _).mp h
  have h2 := List.mem_filter.mp h1
  simp at h2

lemma string_pos_len_iff (s : String) : 0 < s.length ↔ s ≠ "" := by
  obtain ⟨l⟩ := s
  cases l with
  | nil => decide
  | cons c cs => simp [String.length, String.ext_iff]

lemma verifySignature_true_iff (prim : CryptoPrimitive) (m s k : String) :
    verifySignature prim m s k = true ↔
      prim.rawVerify m s (fullPublicKey k) = Except.ok true := by
  rw [verifySignature]
  cases hr : prim.rawVerify m s (fullPublicKey k) with
  | ok b => cases b <;> simp
  | error e => simp

/-! ### The claims -/

/-- Claim C1: for every keypair produced by `generateKeyPair` (a platform PEM
key whose exported payload is dash-free, as base64 is) and every message,
signing with the private key and then verifying against the exported public
key returns true, despite the export stripping the PEM header, footer and
newlines and `verifySignature` rebuilding a PEM block: the rebuilt block
normalises to the same key payload as the original PEM, so a platform
verifier that identifies keys by payload accepts the signature. -/
theorem sign_verify_roundtrip (prim : CryptoPrimitive) (pem priv : String)
    (hdash : ∀ c ∈ (exportPublicKey pem).data, c ≠ '-')
    (hscheme : ∀ m k, exportPublicKey k = exportPublicKey pem →
      prim.rawVerify m (prim.rawSign m priv) k = Except.ok true)
    (m : String) :
    verifySignature prim m (signMessage prim m priv) (generateKeyPair pem priv).publicKey
      = true := by
  have hwrap : exportPublicKey (fullPublicKey (exportPublicKey pem)) = exportPublicKey pem :=
    exportPublicKey_wrap _ hdash (no_newline_exportPublicKey pem)
  have h := hscheme m (fullPublicKey (exportPublicKey pem)) hwrap
  simp [verifySignature, signMessage, generateKeyPair, h]

/-- Claim C1 witness: the roundtrip evaluated on the concrete scheme
`toyPrim`, the concrete PEM `toyPem` and the message "hello". -/
theorem sign_verify_roundtrip_witness :
    verifySignature toyPrim "hello" (signMessage toyPrim "hello" "TOYKEY")
      (generateKeyPair toyPem "TOYKEY").publicKey = true :=
  sign_verify_roundtrip toyPrim toyPem "TOYKEY" (by decide)
    (fun m k h => by
      simp [toyPrim, h, (by decide : exportPublicKey toyPem = "TOYKEY")])
    "hello"

/-- Claim C2 counterexample: `handlePeerConnect` stores a mock profile
(placeholder key and signature) whose signature does not verify — evaluated
here under the concrete scheme `toyPrim` — and even emits a `profile` event
for it, so it is not the case that every operation admits only profiles whose
signature verifies. -/
theorem handlePeerConnect_admits_unverified :
    (handlePeerConnect "QmPeerOne" 1000 emptyNode).1.peers
        = [("QmPeerOne", mockPeerProfile)] ∧
    (handlePeerConnect "QmPeerOne" 1000 emptyNode).2
        = [NodeEvent.profileEvent mockPeerProfile] ∧
    verifyProfile toyPrim mockPeerProfile = false := by
  refine ⟨by decide, by decide, by decide⟩

/-- Claim C2 (amended): every profile admitted through the network profile
handler verifies against its own embedded public key — `handleIncomingProfile`
preserves the all-profiles-verified invariant of the peer directory; the
invariant does not extend to `handlePeerConnect`, which inserts an unverified
mock profile. -/
theorem handleIncomingProfile_preserves_verification (prim : CryptoPrimitive)
    (st : NodeState) (p : UserProfile)
    (hinv : ∀ q ∈ mapValues st.peers, verifyProfile prim q = true) :
    ∀ q ∈ mapValues (handleIncomingProfile prim p st).1.peers,
      verifyProfile prim q = true := by
  intro q hq
  by_cases hv : verifyProfile prim p = false
  · rw [handleIncomingProfile, if_pos hv] at hq
    exact hinv q hq
  · have hvt : verifyProfile prim p = true := by
      revert hv
      cases verifyProfile prim p <;> simp
    rw [handleIncomingProfile, if_neg hv] at hq
    rcases mem_values_mapSet st.peers p.id p q hq with h | h
    · exact hinv q h
    · rw [h]
      exact hvt

/-- Claim C2 (amended) witness: processing the validly signed `profA_new` on
an empty directory leaves only verified profiles stored. -/
theorem handleIncomingProfile_preserves_verification_witness :
    verifyProfile toyPrim profA_new = true :=
  handleIncomingProfile_preserves_verification toyPrim emptyNode profA_new
    (fun q hq => absurd hq (List.not_mem_nil q))
    profA_new (by decide)

/-- Claim C3 counterexample: with `profA_old` (timestamp 100) stored for
identity "idA", processing the validly signed `profA_new` with the smaller
timestamp 50 replaces the stored profile instead of leaving it unchanged. -/
theorem stale_profile_replaces_stored :
    mapGet peerStateA.peers "idA" = some profA_old ∧
    profA_new.timestamp < profA_old.timestamp ∧
    mapGet (handleIncomingProfile toyPrim profA_new peerStateA).1.peers "idA"
        = some profA_new ∧
    profA_new ≠ profA_old := by
  refine ⟨by decide, by decide, by decide, by decide⟩

/-- Claim C3 (amended): `handleIncomingProfile` performs no timestamp
comparison: any incoming profile that passes signature verification replaces
the stored profile for its id unconditionally, whether its timestamp is
greater, equal or smaller than the stored one. -/
theorem handleIncomingProfile_unconditional_replace (prim : CryptoPrimitive)
    (p : UserProfile) (st : NodeState) (h : verifyProfile prim p = true) :
    mapGet (handleIncomingProfile prim p st).1.peers p.id = some p := by
  rw [handleIncomingProfile, if_neg (by simp [h])]
  exact mapGet_mapSet_self st.peers p.id p

/-- Claim C3 (amended) witness: the stale `profA_new` ends up stored. -/
theorem handleIncomingProfile_unconditional_replace_witness :
    mapGet (handleIncomingProfile toyPrim profA_new peerStateA).1.peers profA_new.id
      = some profA_new :=
  handleIncomingProfile_unconditional_replace toyPrim profA_new peerStateA (by decide)

/-- Claim C4 counterexample: after `createPost("hello")` with both clock
reads at 500, a second `createPost("hello")` whose first clock read is still
500 (but whose second read ticked to 501) generates the same id; the stored
entry is replaced by the new post and a `post` event is emitted again, so it
is not the case that an already-present id is never overwritten and emits no
event. -/
theorem createPost_duplicate_id_counterexample :
    mapHas c4st1.posts c4p2.id = true ∧
    mapGet c4st1.posts c4p2.id ≠ some c4p2 ∧
    (createPost toyPrim c4st1 "hello" 500 501).1.posts = [(c4p2.id, c4p2)] ∧
    (createPost toyPrim c4st1 "hello" 500 501).2
        = Except.ok (c4p2, [NodeEvent.postEvent c4p2]) := by
  refine ⟨by decide, by decide, by decide, by rfl⟩

/-- Claim C4 (amended): deduplication by post id holds for inbound handling
only — `handleIncomingPost` leaves the state unchanged and emits nothing when
the id is already stored — while local `createPost` stores unconditionally
(overwriting any existing entry under its generated id) and always emits a
`post` event. -/
theorem post_dedup_inbound_only :
    (∀ (prim : CryptoPrimitive) (post : SocialPost) (st : NodeState),
      mapHas st.posts post.id = true → handleIncomingPost prim post st = (st, [])) ∧
    (∀ (prim : CryptoPrimitive) (st : NodeState) (kp : KeyPair) (prof : UserProfile)
      (content : String) (n1 n2 : Nat), st.keyPair = some kp → st.profile = some prof →
      mapGet (createPost prim st content n1 n2).1.posts
          (mkLocalPost prim kp prof content n1 n2).id
        = some (mkLocalPost prim kp prof content n1 n2) ∧
      (createPost prim st content n1 n2).2
        = Except.ok (mkLocalPost prim kp prof content n1 n2,
            [NodeEvent.postEvent (mkLocalPost prim kp prof content n1 n2)])) := by
  constructor
  · intro prim post st h
    by_cases hv : verifyPost prim post = false
    · rw [handleIncomingPost, if_pos hv]
    · rw [handleIncomingPost, if_neg hv, if_pos h]
  · intro prim st kp prof content n1 n2 h1 h2
    obtain ⟨skp, sprof, sposts, speers, sfoll⟩ := st
    have hk : skp = some kp := h1
    have hp : sprof = some prof := h2
    subst hk
    subst hp
    exact ⟨mapGet_mapSet_self _ _ _, rfl⟩

/-- Claim C4 (amended) witness: inbound duplicate is a no-op on a concrete
state that already stores the id, and a concrete `createPost` stores and
returns its post. -/
theorem post_dedup_inbound_only_witness :
    handleIncomingPost toyPrim c4p2 c4st1 = (c4st1, []) ∧
    mapGet (createPost toyPrim initNode "hello" 500 500).1.posts
        (mkLocalPost toyPrim selfKp selfProf "hello" 500 500).id
      = some (mkLocalPost toyPrim selfKp selfProf "hello" 500 500) :=
  ⟨post_dedup_inbound_only.1 toyPrim c4p2 c4st1 (by decide),
   (post_dedup_inbound_only.2 toyPrim initNode selfKp selfProf "hello" 500 500 rfl rfl).1⟩

/-- Claim C5: after `followUser A`, `getFollowedPosts` contains every stored
post whose author key is A; after `unfollowUser A` (for A distinct from the
local user's own key) it excludes them on the next call, while the posts map
itself is left untouched. -/
theorem follow_unfollow_view (st : NodeState) (akey : String) (p : SocialPost) :
    (p ∈ mapValues st.posts → p.authorPublicKey = akey →
      p ∈ getFollowedPosts (followUser st akey)) ∧
    (p.authorPublicKey = akey → isSelfKey st akey = false →
      p ∉ getFollowedPosts (unfollowUser st akey)) ∧
    (unfollowUser st akey).posts = st.posts := by
  refine ⟨?_, ?_, rfl⟩
  · intro hm ha
    rw [getFollowedPosts]
    refine List.mem_filter.mpr ⟨?_, ?_⟩
    · rw [getPosts]
      simp only [List.mem_insertionSort]
      exact hm
    · rw [ha]
      have hadd : setHas (followUser st akey).following akey = true :=
        setHas_setAdd_self st.following akey
      simp [hadd]
  · intro ha hself hmem
    rw [getFollowedPosts] at hmem
    have hpred := (List.mem_filter.mp hmem).2
    rw [ha] at hpred
    have hd : setHas (unfollowUser st akey).following akey = false :=
      setHas_setDelete_self st.following akey
    have hs : isSelfKey (unfollowUser st akey) akey = false := hself
    rw [hd, hs] at hpred
    simp at hpred

/-- Claim C5 witness: on a concrete store holding one post authored by key
"AKEY", following makes it visible, unfollowing hides it, the store keeps
it. -/
theorem follow_unfollow_view_witness :
    c5post ∈ getFollowedPosts (followUser c5state "AKEY") ∧
    c5post ∉ getFollowedPosts (unfollowUser c5state "AKEY") ∧
    (unfollowUser c5state "AKEY").posts = c5state.posts :=
  ⟨(follow_unfollow_view c5state "AKEY" c5post).1 (by decide) rfl,
   (follow_unfollow_view c5state "AKEY" c5post).2.1 rfl (by decide),
   (follow_unfollow_view c5state "AKEY" c5post).2.2⟩

/-- Claim C6 counterexample: two stored posts share timestamp 100 with ids
"b" (inserted first) and "a"; `getPosts` returns them in insertion order
[b-post, a-post] although lexicographic id order demands the "a" post first,
so ties are not broken by id and the output is not determined by the store
contents alone. -/
theorem getPosts_tiebreak_counterexample :
    getPosts c6state = [c6postB, c6postA] ∧
    c6postA.timestamp = c6postB.timestamp ∧
    tieLt c6postA.id.data c6postB.id.data = true ∧
    specOrderedBool (getPosts c6state) = false := by
  refine ⟨by decide, by decide, by decide, by decide⟩

/-- Claim C6 (amended): `getPosts` returns a permutation of the stored posts
sorted non-strictly descending by timestamp; equal-timestamp ties keep the
posts map's insertion order (stable sort) rather than id order. -/
theorem getPosts_sorted_desc_perm (st : NodeState) :
    List.Sorted (fun a b : SocialPost => b.timestamp ≤ a.timestamp) (getPosts st) ∧
    (getPosts st).Perm (mapValues st.posts) := by
  constructor
  · haveI : IsTotal SocialPost (fun a b => b.timestamp ≤ a.timestamp) :=
      ⟨fun a b => Nat.le_total b.timestamp a.timestamp⟩
    haveI : IsTrans SocialPost (fun a b => b.timestamp ≤ a.timestamp) :=
      ⟨fun _ _ _ hab hbc => Nat.le_trans hbc hab⟩
    exact List.sorted_insertionSort _ _
  · exact List.perm_insertionSort _ _

/-- Claim C7: an inbound envelope whose envelope-level signature is the empty
string is dropped before any payload-level verification: the state is
unchanged, no event is emitted, zero payload verify calls happen, and no
error is surfaced (the handler returns normally). -/
theorem empty_envelope_signature_dropped (prim : CryptoPrimitive)
    (msg : NetworkMessage) (st : NodeState) (h : msg.signature = "") :
    handleNetworkMessage prim msg st
      = { state := st, events := [], payloadVerifyCalls := 0 } := by
  have hv : verifyNetworkMessage msg = false := by
    simp [verifyNetworkMessage, h]
  rw [handleNetworkMessage, if_pos hv]

/-- Claim C7 witness: the empty-signature envelope `c7msg` is dropped. -/
theorem empty_envelope_signature_dropped_witness :
    handleNetworkMessage toyPrim c7msg emptyNode
      = { state := emptyNode, events := [], payloadVerifyCalls := 0 } :=
  empty_envelope_signature_dropped toyPrim c7msg emptyNode rfl

/-- Claim C8: the envelope-level check `verifyNetworkMessage` returns true
exactly when the signature string is non-empty — independently of the
signature's contents, the sender and the payload, and without consulting any
cryptographic primitive (the function takes none). -/
theorem verifyNetworkMessage_nonempty_only (msg : NetworkMessage) :
    verifyNetworkMessage msg = true ↔ msg.signature ≠ "" := by
  simp only [verifyNetworkMessage, decide_eq_true_eq]
  exact string_pos_len_iff msg.signature

/-- Claim C9: `verifySignature` is total and fail-closed: when the platform
verify call throws (malformed key, malformed signature encoding), the
`try/catch` yields `false` rather than propagating the exception, and the
only way to return `true` is a successful platform verification; post
verification (`verifyPost`) reduces to the same total check and hence never
throws either. -/
theorem verifySignature_fail_closed (prim : CryptoPrimitive) (m s k : String) :
    (∀ e, prim.rawVerify m s (fullPublicKey k) = Except.error e →
      verifySignature prim m s k = false) ∧
    (verifySignature prim m s k = true ↔
      prim.rawVerify m s (fullPublicKey k) = Except.ok true) ∧
    (∀ post : SocialPost, verifyPost prim post = true ↔
      prim.rawVerify (postSignedData post) post.signature
          (fullPublicKey post.authorPublicKey) = Except.ok true) := by
  refine ⟨?_, verifySignature_true_iff prim m s k, ?_⟩
  · intro e he
    rw [verifySignature, he]
  · intro post
    exact verifySignature_true_iff prim (postSignedData post) post.signature
      post.authorPublicKey

/-- Claim C9 witness: under a primitive whose verify call always throws,
`verifySignature` returns false instead of raising. -/
theorem verifySignature_fail_closed_witness :
    verifySignature errPrim "msg" "sig" "badkey" = false :=
  (verifySignature_fail_closed errPrim "msg" "sig" "badkey").1 "bad key" rfl

/-- Claim C10: `createPost` on an uninitialised node (keypair or profile
absent) fails with the `Node not initialized` error and leaves the state —
in particular the content store — unchanged; on an initialised node it
succeeds (no such error), stores the post, and the stored post's id equals
`hash(content + firstClockRead + profile.id)`. -/
theorem createPost_initialization (prim : CryptoPrimitive) (st : NodeState)
    (content : String) (n1 n2 : Nat) :
    ((st.keyPair = none ∨ st.profile = none) →
      createPost prim st content n1 n2 = (st, Except.error "Node not initialized")) ∧
    (∀ kp prof, st.keyPair = some kp → st.profile = some prof →
      (createPost prim st content n1 n2).2
          = Except.ok (mkLocalPost prim kp prof content n1 n2,
              [NodeEvent.postEvent (mkLocalPost prim kp prof content n1 n2)]) ∧
      mapGet (createPost prim st content n1 n2).1.posts
          (mkLocalPost prim kp prof content n1 n2).id
        = some (mkLocalPost prim kp prof content n1 n2) ∧
      (mkLocalPost prim kp prof content n1 n2).id
        = prim.rawHash (content ++ toString n1 ++ prof.id)) := by
  obtain ⟨skp, sprof, sposts, speers, sfoll⟩ := st
  constructor
  · intro h
    rcases h with h | h
    · have hs : skp = none := h
      subst hs
      rfl
    · have hs : sprof = none := h
      subst hs
      cases skp with
      | none => rfl
      | some kp => rfl
  · intro kp prof h1 h2
    have hk : skp = some kp := h1
    have hp : sprof = some prof := h2
    subst hk
    subst hp
    exact ⟨rfl, mapGet_mapSet_self _ _ _, rfl⟩

/-- Claim C10 witness: `createPost` on the fresh node errors; on the
initialised node it succeeds with the hash-derived id. -/
theorem createPost_initialization_witness :
    createPost toyPrim emptyNode "hi" 7 8 = (emptyNode, Except.error "Node not initialized") ∧
    (createPost toyPrim initNode "hi" 7 8).2
        = Except.ok (mkLocalPost toyPrim selfKp selfProf "hi" 7 8,
            [NodeEvent.postEvent (mkLocalPost toyPrim selfKp selfProf "hi" 7 8)]) ∧
    (mkLocalPost toyPrim selfKp selfProf "hi" 7 8).id
        = toyPrim.rawHash ("hi" ++ toString 7 ++ selfProf.id) :=
  ⟨(createPost_initialization toyPrim emptyNode "hi" 7 8).1 (Or.inl rfl),
   ((createPost_initialization toyPrim initNode "hi" 7 8).2 selfKp selfProf rfl rfl).1,
   ((createPost_initialization toyPrim initNode "hi" 7 8).2 selfKp selfProf rfl rfl).2.2⟩

end DSocial
